import Mathlib

/-!
Shallow embedding of the query-understanding pipeline of the rugby Q&A
system (modules `intent_classifier.py`, `routing_classifier.py`,
`data_handler.py`).  Python strings are modelled as Lean `String`,
Python lists as `List`, Python dicts that the code iterates in insertion
order as association lists, Python `None` either as `Option.none` or as
an explicit `Value.vnull` JSON value, and Python exceptions as
`Except String` with the exception's `str()` as the payload.
-/

/-! ## Python string primitives -/

/-- Whitespace recognised by Python's `str.strip()` / `str.split()`
(ASCII fragment: space, tab, newline, carriage return, vertical tab,
form feed). -/
def isPySpace (c : Char) : Bool :=
  c = ' ' || c = '\t' || c = '\n' || c = '\r' || c = Char.ofNat 11 || c = Char.ofNat 12

/-- `str.strip()` on a character list. -/
def pyStripL (cs : List Char) : List Char :=
  ((cs.dropWhile isPySpace).reverse.dropWhile isPySpace).reverse

/-- `str.strip()`. -/
def pyStripS (s : String) : String := String.mk (pyStripL s.data)

/-- `str.lower()` (ASCII fragment). -/
def pyLowerL (cs : List Char) : List Char := cs.map Char.toLower

/-- `str.lower()`. -/
def pyLowerS (s : String) : String := String.mk (pyLowerL s.data)

/-- `str.strip(chars)`: drop leading and trailing characters that belong
to the given set. -/
def stripCharsL (set : List Char) (cs : List Char) : List Char :=
  ((cs.dropWhile (fun c => set.contains c)).reverse.dropWhile
      (fun c => set.contains c)).reverse

/-- `str.split()` (split on whitespace runs, no empty fields). -/
def pySplitGo : List Char → List Char → List String
  | [], [] => []
  | [], cur => [String.mk cur.reverse]
  | c :: rest, cur =>
      if isPySpace c then
        match cur with
        | [] => pySplitGo rest []
        | _ => String.mk cur.reverse :: pySplitGo rest []
      else pySplitGo rest (c :: cur)

/-- `str.split()`. -/
def pySplitS (s : String) : List String := pySplitGo s.data []

/-- `needle in haystack` on character lists (Python substring test). -/
def isSubstrL (needle haystack : List Char) : Bool :=
  match haystack with
  | [] => needle.isEmpty
  | _ :: rest => needle.isPrefixOf haystack || isSubstrL needle rest

/-- `needle in haystack` on strings. -/
def isSubstrS (needle haystack : String) : Bool := isSubstrL needle.data haystack.data

/-- `str.isdigit()` (ASCII fragment): nonempty and all decimal digits. -/
def pyIsDigit (s : String) : Bool := !s.data.isEmpty && s.data.all Char.isDigit

/-- `int(s)` for an all-digit string (the only case the code applies it to,
guarded by `isdigit`). -/
def strToNat (s : String) : Nat :=
  s.data.foldl (fun acc c => 10 * acc + (c.toNat - 48)) 0

/-! ## LRUCache (`intent_classifier.py`, class `LRUCache`)

The `OrderedDict` is modelled as an association list whose head is the
least recently used entry and whose last element is the most recently
used one; `move_to_end` is erase-and-append, `popitem(last=False)` is
`List.tail`. -/

structure LRUCache where
  max_size : Nat
  cache : List (String × String)
deriving DecidableEq, Repr

/-- First-match association lookup (`key in dict` / `dict[key]`). -/
def lookupVal : List (String × String) → String → Option String
  | [], _ => none
  | (k, v) :: rest, key => if k = key then some v else lookupVal rest key

/-- Remove the entry with the given key (keys are unique in an
`OrderedDict`, so filtering is the same as removing the one entry). -/
def eraseKey (l : List (String × String)) (key : String) : List (String × String) :=
  l.filter (fun p => !(p.1 = key : Bool))

/-- `LRUCache.get`: on a hit, `move_to_end` and return the value. -/
def LRUCache.getS (c : LRUCache) (key : String) : Option String × LRUCache :=
  match lookupVal c.cache key with
  | some v => (some v, ⟨c.max_size, eraseKey c.cache key ++ [(key, v)]⟩)
  | none => (none, c)

/-- `LRUCache.put`: update-and-promote on an existing key, otherwise
evict the least recently used entry when full, then insert. -/
def LRUCache.putS (c : LRUCache) (key value : String) : LRUCache :=
  match lookupVal c.cache key with
  | some _ => ⟨c.max_size, eraseKey c.cache key ++ [(key, value)]⟩
  | none =>
      if c.max_size ≤ c.cache.length then
        ⟨c.max_size, c.cache.tail ++ [(key, value)]⟩
      else
        ⟨c.max_size, c.cache ++ [(key, value)]⟩

/-- `LRUCache.clear`. -/
def LRUCache.clearS (c : LRUCache) : LRUCache := ⟨c.max_size, []⟩

/-- A cache constructed as `LRUCache(max_size)`. -/
def LRUCache.emptyC (n : Nat) : LRUCache := ⟨n, []⟩

/-- One cache operation of the public interface. -/
inductive CacheOp where
  | get (k : String)
  | put (k v : String)
  | clear
deriving DecidableEq, Repr

def applyOp (c : LRUCache) : CacheOp → LRUCache
  | .get k => (c.getS k).2
  | .put k v => c.putS k v
  | .clear => c.clearS

def runOps (c : LRUCache) (ops : List CacheOp) : LRUCache :=
  ops.foldl applyOp c

/-- Fold a list of key/value pairs into the cache with `put`. -/
def putAll (c : LRUCache) (kvs : List (String × String)) : LRUCache :=
  kvs.foldl (fun c kv => c.putS kv.1 kv.2) c

/-! ## Untrusted-output parser (`IntentClassifierLLM._parse_llm_json_or_label`)

`re.search(r"\{.*?\}", txt, re.S)` finds the leftmost `{` that is
followed by some `}`, the match ending at the first such `}`. -/

def takeToBrace : List Char → Option (List Char)
  | [] => none
  | c :: rest =>
      if c = Char.ofNat 125 then some [c]
      else
        match takeToBrace rest with
        | none => none
        | some l => some (c :: l)

def firstBraceMatch : List Char → Option (List Char)
  | [] => none
  | c :: rest =>
      if c = Char.ofNat 123 then
        match takeToBrace rest with
        | some l => some (c :: l)
        | none => firstBraceMatch rest
      else firstBraceMatch rest

/-- JSON values that can occur in the flat single-object payloads the
classifier prompts for.  `json.loads` on nested arrays/objects, floats
and `\uXXXX` escapes is outside this model; the parser fails there, and
the classifier then falls through to the later stages exactly as it does
when `json.loads` raises. -/
inductive JVal where
  | jstr (s : String)
  | jint (n : Int)
  | jbool (b : Bool)
  | jnull
deriving DecidableEq, Repr

/-- JSON whitespace accepted by `json.loads`. -/
def isJsonWs (c : Char) : Bool := c = ' ' || c = '\t' || c = '\n' || c = '\r'

def skipJWs (cs : List Char) : List Char := cs.dropWhile isJsonWs

/-- JSON string escapes (without `\uXXXX`). -/
def escChar (c : Char) : Option Char :=
  if c = Char.ofNat 34 then some (Char.ofNat 34)
  else if c = Char.ofNat 92 then some (Char.ofNat 92)
  else if c = '/' then some '/'
  else if c = 'n' then some '\n'
  else if c = 't' then some '\t'
  else if c = 'r' then some '\r'
  else if c = 'b' then some (Char.ofNat 8)
  else if c = 'f' then some (Char.ofNat 12)
  else none

/-- Parse a JSON string body (cursor already past the opening quote);
returns the decoded content and the remainder after the closing quote.
Unescaped control characters are rejected, as in strict `json.loads`. -/
def parseJStrGo : Nat → List Char → Option (List Char × List Char)
  | 0, _ => none
  | _, [] => none
  | fuel + 1, c :: rest =>
      if c = Char.ofNat 34 then some ([], rest)
      else if c = Char.ofNat 92 then
        match rest with
        | [] => none
        | e :: rest2 =>
            match escChar e with
            | none => none
            | some ec =>
                match parseJStrGo fuel rest2 with
                | none => none
                | some (s, r) => some (ec :: s, r)
      else if c.toNat < 32 then none
      else
        match parseJStrGo fuel rest with
        | none => none
        | some (s, r) => some (c :: s, r)

/-- Parse a JSON integer literal (floats and exponents fail: model limit). -/
def parseJIntGo (cs : List Char) : Option (JVal × List Char) :=
  let neg : Bool := match cs with | c :: _ => c = '-' | [] => false
  let cs1 := if neg then cs.tail else cs
  let digits := cs1.takeWhile Char.isDigit
  let rest := cs1.dropWhile Char.isDigit
  if digits.isEmpty then none
  else
    match rest with
    | c :: _ =>
        if c = '.' || c = 'e' || c = 'E' then none
        else some (JVal.jint (if neg then -(strToNat (String.mk digits) : Int) else (strToNat (String.mk digits) : Int)), rest)
    | [] => some (JVal.jint (if neg then -(strToNat (String.mk digits) : Int) else (strToNat (String.mk digits) : Int)), rest)

def parseJValGo (fuel : Nat) (cs : List Char) : Option (JVal × List Char) :=
  match cs with
  | [] => none
  | c :: rest =>
      if c = Char.ofNat 34 then
        match parseJStrGo fuel rest with
        | none => none
        | some (s, r) => some (JVal.jstr (String.mk s), r)
      else if c = 't' then
        if rest.take 3 = ['r', 'u', 'e'] then some (JVal.jbool true, rest.drop 3) else none
      else if c = 'f' then
        if rest.take 4 = ['a', 'l', 's', 'e'] then some (JVal.jbool false, rest.drop 4) else none
      else if c = 'n' then
        if rest.take 3 = ['u', 'l', 'l'] then some (JVal.jnull, rest.drop 3) else none
      else parseJIntGo cs

/-- Parse the members of a JSON object, cursor at the opening quote of a
key; Python's dict semantics (later duplicate keys win) are applied at
lookup time. -/
def parseMembersGo : Nat → List Char → Option (List (String × JVal) × List Char)
  | 0, _ => none
  | fuel + 1, cs =>
      match cs with
      | [] => none
      | c :: rest =>
          if c = Char.ofNat 34 then
            match parseJStrGo fuel rest with
            | none => none
            | some (kcs, r1) =>
                match skipJWs r1 with
                | ':' :: r3 =>
                    match parseJValGo fuel (skipJWs r3) with
                    | none => none
                    | some (v, r5) =>
                        match skipJWs r5 with
                        | ',' :: r7 =>
                            match parseMembersGo fuel (skipJWs r7) with
                            | none => none
                            | some (ms, r8) => some ((String.mk kcs, v) :: ms, r8)
                        | c2 :: r7 =>
                            if c2 = Char.ofNat 125 then some ([(String.mk kcs, v)], r7) else none
                        | [] => none
                | _ => none
          else none

/-- `json.loads` on a full input expected to be one flat object; the
whole input must be consumed (Python raises on trailing data). -/
def jsonLoadsObj (cs : List Char) : Option (List (String × JVal)) :=
  match skipJWs cs with
  | [] => none
  | c :: rest =>
      if c = Char.ofNat 123 then
        match skipJWs rest with
        | [] => none
        | c2 :: r2 =>
            if c2 = Char.ofNat 125 then
              if (skipJWs r2).isEmpty then some [] else none
            else
              match parseMembersGo (cs.length + 10) (skipJWs rest) with
              | none => none
              | some (ms, r3) => if (skipJWs r3).isEmpty then some ms else none
      else none

/-- `dict.get` on the decoded object: later duplicate keys override. -/
def lookupLastJ : List (String × JVal) → String → Option JVal
  | [], _ => none
  | (k, v) :: rest, key =>
      match lookupLastJ rest key with
      | some v' => some v'
      | none => if k = key then some v else none

/-- Python `str(value)` on a decoded JSON value. -/
def pyStr : JVal → String
  | .jstr s => s
  | .jint n => toString n
  | .jbool true => "True"
  | .jbool false => "False"
  | .jnull => "None"

/-- Stage A: first `{...}` span, `json.loads`, validated `intent` field. -/
def stageA (valid : List String) (txt : List Char) : Option String :=
  match firstBraceMatch txt with
  | none => none
  | some span =>
      match jsonLoadsObj span with
      | none => none
      | some obj =>
          let rawv := match lookupLastJ obj "intent" with
            | some v => pyStr v
            | none => ""
          let intent := pyLowerS (pyStripS rawv)
          if valid.contains intent then some intent else none

/-- Caseless match of a (lowercase) literal pattern; returns the rest. -/
def matchCaseless : List Char → List Char → Option (List Char)
  | [], cs => some cs
  | _, [] => none
  | p :: ps, c :: cs => if c.toLower = p then matchCaseless ps cs else none

/-- Try the regex `"intent"\s*:\s*"([^"]+)"` (case-insensitive) anchored
at the current position; returns the captured group. -/
def matchIntentAt (cs : List Char) : Option (List Char) :=
  match cs with
  | [] => none
  | c :: rest =>
      if c = Char.ofNat 34 then
        match matchCaseless ['i', 'n', 't', 'e', 'n', 't'] rest with
        | none => none
        | some r1 =>
            match r1 with
            | [] => none
            | c2 :: r2 =>
                if c2 = Char.ofNat 34 then
                  match r2.dropWhile isPySpace with
                  | ':' :: r4 =>
                      match r4.dropWhile isPySpace with
                      | [] => none
                      | c3 :: r6 =>
                          if c3 = Char.ofNat 34 then
                            let body := r6.takeWhile (fun ch => !(ch = Char.ofNat 34 : Bool))
                            let rest2 := r6.dropWhile (fun ch => !(ch = Char.ofNat 34 : Bool))
                            if body.isEmpty then none
                            else
                              match rest2 with
                              | _ :: _ => some body
                              | [] => none
                          else none
                  | _ => none
                else none
      else none

/-- `re.search`: leftmost position where the Stage-B pattern matches. -/
def stageBScan : List Char → Option (List Char)
  | [] => none
  | c :: rest =>
      match matchIntentAt (c :: rest) with
      | some b => some b
      | none => stageBScan rest

/-- Stage B: pull `"intent": "<value>"` out of the raw text. -/
def stageB (valid : List String) (txt : List Char) : Option String :=
  match stageBScan txt with
  | none => none
  | some body =>
      let intent := pyLowerS (pyStripS (String.mk body))
      if valid.contains intent then some intent else none

/-- `\w` of Python's `re` (ASCII fragment). -/
def isWordChar (c : Char) : Bool := c.isAlphanum || c = '_'

/-- Whole-word occurrence of `lbl` in `cs` (`\b lbl \b`), tracking the
previous character while scanning. -/
def wordSearchGo (lbl : List Char) : List Char → Option Char → Bool
  | [], _ => false
  | c :: rest, prev =>
      (lbl.isPrefixOf (c :: rest)
        && (match prev with | none => true | some p => !isWordChar p)
        && (match ((c :: rest).drop lbl.length).head? with
            | none => true
            | some n => !isWordChar n))
      || wordSearchGo lbl rest (some c)

/-- Stage C: labels appearing as whole words in the lowercased text;
prefer any non-`get_stats` label, first in label-list order. -/
def stageC (valid : List String) (txt : List Char) : String :=
  let lower := pyLowerL txt
  let found := valid.filter (fun lbl => wordSearchGo lbl.data lower none)
  if found.isEmpty then "get_stats"
  else
    match found.filter (fun lbl => !(lbl = "get_stats" : Bool)) with
    | [] => "get_stats"
    | l :: _ => l

/-- `IntentClassifierLLM._parse_llm_json_or_label`. -/
def parseLLMJsonOrLabel (valid : List String) (raw : String) : String :=
  let txt := pyStripL raw.data
  match stageA valid txt with
  | some i => i
  | none =>
      match stageB valid txt with
      | some i => i
      | none => stageC valid txt

/-- The default seven-label set of `IntentClassifierLLM`. -/
def defaultIntents : List String :=
  ["get_stats", "compare", "get_roster", "get_result",
   "get_player_info", "top_stat_in_game", "get_grades"]

/-! ## IntentClassifierLLM (`classify` / `_classify_with_llm`)

The `LLMClient.chat` call is external; its outcome is an explicit input:
`.ok raw` for a returned response text, `.error ()` for a raised
exception (caught by `_classify_with_llm`'s `try`). -/

structure IntentClassifier where
  valid_intents : List String
  cache : Option LRUCache
  cache_hits : Nat
  cache_misses : Nat
deriving DecidableEq, Repr

/-- `_classify_with_llm`: parse the response, or return the safe default
when the service call raised. -/
def IntentClassifier.classifyWithLLM (c : IntentClassifier)
    (outcome : Except Unit String) : String :=
  match outcome with
  | .error _ => "get_stats"
  | .ok raw => parseLLMJsonOrLabel c.valid_intents raw

/-- `IntentClassifierLLM.classify`: returns the label and the updated
classifier state (cache and hit/miss counters).  A cached empty string
is falsy in Python, hence re-classified; `cache.get` has already
promoted it by then, which the state threading preserves. -/
def IntentClassifier.classify (c : IntentClassifier) (query : String)
    (outcome : Except Unit String) : String × IntentClassifier :=
  let q := pyStripS query
  if q = "" then ("get_stats", c)
  else
    let norm := pyLowerS q
    match c.cache with
    | some ca =>
        let res := ca.getS norm
        match res.1 with
        | some v =>
            if v ≠ "" then
              (v, ⟨c.valid_intents, some res.2, c.cache_hits + 1, c.cache_misses⟩)
            else
              let intent := c.classifyWithLLM outcome
              (intent, ⟨c.valid_intents, some (res.2.putS norm intent),
                c.cache_hits, c.cache_misses + 1⟩)
        | none =>
            let intent := c.classifyWithLLM outcome
            (intent, ⟨c.valid_intents, some (res.2.putS norm intent),
              c.cache_hits, c.cache_misses + 1⟩)
    | none => (c.classifyWithLLM outcome, c)

/-! ## RoutingClassifier (`routing_classifier.classify_query`)

Only the normalization of the service response determines the returned
route; the message building (system prompt plus few-shot examples) does
not affect it.  `.error ()` models any exception inside the `try`
(missing prompt file, malformed example, ...), which is caught. -/

/-- The punctuation set of `first.strip(".,:;!?'\"-_/\\()[]{}")`. -/
def routeStripSet : List Char :=
  ['.', ',', ':', ';', '!', '?', Char.ofNat 39, Char.ofNat 34, '-', '_', '/',
   Char.ofNat 92, '(', ')', '[', ']', Char.ofNat 123, Char.ofNat 125]

/-- `response = (raw or "").strip().lower()`. -/
def routeResponse (raw : String) : String := pyLowerS (pyStripS raw)

/-- First whitespace token of the response, punctuation stripped. -/
def routeFirst (raw : String) : String :=
  String.mk (stripCharsL routeStripSet ((pySplitS (routeResponse raw)).headD "").data)

/-- The elif chain mapping common variants. -/
def routeNormalized (raw : String) : String :=
  if routeFirst raw = "simple" || routeFirst raw = "s" then "simple"
  else if routeFirst raw = "complex" || routeFirst raw = "c" then "complex"
  else if pyIsDigit (routeFirst raw) then "simple"
  else if isSubstrS "error" (routeResponse raw) || isSubstrS "llmclient" (routeResponse raw) then
    "simple"
  else routeFirst raw

/-- `classify_query`, as a function of the service-call outcome: the
final guard turns anything but the two routes into `"simple"`. -/
def classifyQuery (outcome : Except Unit String) : String :=
  match outcome with
  | .error _ => "simple"
  | .ok raw =>
      if routeNormalized raw ≠ "simple" ∧ routeNormalized raw ≠ "complex" then "simple"
      else routeNormalized raw

/-! ## Data model (`data_handler.py`)

Event records are loaded verbatim from JSON; fields the handlers touch
are modelled explicitly, with `Option` for possibly-absent keys.
`Value` is the universe of JSON values a `grade` (or the unused player
`country`/`weight`/`height`) cell can hold; `vlist`/`vdict` stand for
composite values, whose contents `int()` never inspects (it raises
`TypeError` on them). -/

inductive Value where
  | vnull
  | vint (n : Int)
  | vstr (s : String)
  | vbool (b : Bool)
  | vlist
  | vdict
deriving DecidableEq, Repr

/-- Python `int(s)` on a string: optional surrounding whitespace, an
optional sign, then decimal digits (digit-group underscores are outside
this model).  `none` models a raised `ValueError`. -/
def pyIntOfString (s : String) : Option Int :=
  let cs := pyStripL s.data
  let neg : Bool := match cs with | c :: _ => c = '-' | [] => false
  let pos : Bool := match cs with | c :: _ => c = '+' | [] => false
  let ds := if neg || pos then cs.tail else cs
  if ds.isEmpty || !ds.all Char.isDigit then none
  else some (if neg then -(strToNat (String.mk ds) : Int) else (strToNat (String.mk ds) : Int))

/-- Python `int(v)` on a JSON value; `none` models a raised
`ValueError`/`TypeError` (caught by `_extract_grade`). -/
def pyInt : Value → Option Int
  | .vnull => none
  | .vint n => some n
  | .vstr s => pyIntOfString s
  | .vbool b => some (if b then 1 else 0)
  | .vlist => none
  | .vdict => none

structure Event where
  etype : Option String
  player_id : Option Int
  team_id : Option Int
  metadata : Option (List (String × Value))
  grade : Option Value
deriving DecidableEq, Repr

/-- `dict.get(key)` on a metadata mapping (first match; keys decoded
from JSON are unique). -/
def mdLookup : List (String × Value) → String → Option Value
  | [], _ => none
  | (k, v) :: rest, key => if k = key then some v else mdLookup rest key

/-- Collapse an absent key and a stored JSON `null` to Python `None`. -/
def pyGetV : Option Value → Value
  | some v => v
  | none => Value.vnull

/-- The value `metadata.get('grade')` sees (with `metadata` defaulted to
`{}` when the key is absent). -/
def nestedGradeVal (e : Event) : Value :=
  pyGetV (mdLookup (match e.metadata with | some m => m | none => []) "grade")

/-- The value `event.get('grade')` sees. -/
def topGradeVal (e : Event) : Value := pyGetV e.grade

/-- `SimpleRugbyDataHandler._extract_grade`: nested grade first, then the
top-level one; coercion failures fall through, `None` if both fail.
(`pyInt Value.vnull = none`, so the explicit `is not None` guards of the
source coincide with the coercion test.) -/
def extractGrade (e : Event) : Option Int :=
  match pyInt (nestedGradeVal e) with
  | some n => some n
  | none => pyInt (topGradeVal e)

structure Player where
  game_id : Option Int
  team_id : Option Int
  team_name : Option String
  team_type : String
  jersey_number : Option Int
  position : Option String
  player_id : Option Int
  first_name : Option String
  last_name : Option String
  country : Option Value
  weight : Option Value
  height : Option Value
deriving DecidableEq, Repr

structure TeamRef where
  tid : Option Int
  tname : Option String
deriving DecidableEq, Repr

structure Game where
  gid : Option Value
  round : Option Value
  start_time : Option Value
  competition : Option Value
  venue : Option Value
  home_team : Option TeamRef
  away_team : Option TeamRef
deriving DecidableEq, Repr

/-- The loaded state of `SimpleRugbyDataHandler`: games, events, and the
players flattened out of both rosters at load time. -/
structure RugbyData where
  games : List Game
  events : List Event
  players : List Player
deriving DecidableEq, Repr

/-- The entity dictionary produced by the extractor (`entities.get(k, [])`
for each category). -/
structure Entities where
  players : List String
  teams : List String
  positions : List String
  event_types : List String
  time_reference : List String
deriving DecidableEq, Repr

/-! ## Result records

Each handler emits dicts of a fixed shape; `Rec` is their disjoint
union, one constructor per shape, fields in source order. -/

/-- `f"{first_name} {last_name}"` where either part may be `None`. -/
def fstr : Option String → String
  | some s => s
  | none => "None"

def fullNameOf (p : Player) : String := fstr p.first_name ++ " " ++ fstr p.last_name

/-- The nested `"player"` dict used by stats/ranking records. -/
structure PlayerBrief where
  name : String
  jersey_number : Option Int
  position : Option String
  team : Option String
  player_id : Option Int
deriving DecidableEq, Repr

def briefOf (p : Player) : PlayerBrief :=
  ⟨fullNameOf p, p.jersey_number, p.position, p.team_name, p.player_id⟩

/-- Per-event-type grade aggregate of `_get_player_event_stats` /
`_get_team_event_stats`; `avg` is the running `sum/count` (exact
rational in place of the Python float). -/
structure GradeAgg where
  grades : List Int
  count : Nat
  sum : Int
  avg : ℚ
  min : Option Int
  max : Option Int
deriving DecidableEq, Repr

structure EventStatsR where
  total_events : Nat
  event_counts : List (String × Nat)
  grade_stats : List (String × GradeAgg)
deriving DecidableEq, Repr

/-- One `top_players` element of a ranking record. -/
structure TopPlayer where
  player : PlayerBrief
  count : Nat
  avg_grade : Option ℚ
deriving DecidableEq, Repr

inductive Rec where
  | playerInfo (player_id : Option Int) (name : String) (jersey_number : Option Int)
      (position : Option String) (team : Option String) (team_type : String)
      (game_id : Option Int)
  | playerStats (player : PlayerBrief) (statistics : EventStatsR) (event_types : List String)
  | teamStats (team : String) (team_id : Option Int) (statistics : EventStatsR)
      (event_types : List String)
  | ranking (query_type : String) (top_players : List TopPlayer)
      (event_types : List String) (total_events : Nat)
  | teamInfo (team_name : Option String) (players : List Player)
  | comparison (comparison_data : List (Player × EventStatsR))
  | gameInfo (game_id round start_time competition venue : Option Value)
      (home_team away_team : Option String)
deriving DecidableEq, Repr

structure QueryResult where
  intent : String
  data : List Rec
  success : Bool
  error : Option String
  metadata : Option Value
deriving DecidableEq, Repr

/-- The `QueryResult(...)` call ending each entity handler:
`success=len(results) > 0`, `error=None if results else msg`. -/
def finishQR (intent : String) (results : List Rec) (msg : String) : QueryResult :=
  ⟨intent, results, decide (0 < results.length),
    if results.isEmpty then some msg else none, none⟩

/-! ## Fallible pieces shared by the handlers

`Except String` carries a raised exception's `str(e)`.  The one raise
point the loaded-data universe admits is `.lower()` on a `None` team or
last name (a roster entry whose JSON lacked the field). -/

def attrLowerErr : String :=
  "\x27NoneType\x27 object has no attribute \x27lower\x27"

/-- `name.lower()` on a possibly-`None` string field. -/
def pyLowerAttr : Option String → Except String String
  | some s => .ok (pyLowerS s)
  | none => .error attrLowerErr

/-- `team_name.lower() in player['team_name'].lower()` for one query
string and one player. -/
def teamSubstrM (t : String) (p : Player) : Except String Bool :=
  match pyLowerAttr p.team_name with
  | .error e => .error e
  | .ok tn => .ok (isSubstrS (pyLowerS t) tn)

/-- `[p for p in self.players if team_name.lower() in p['team_name'].lower()]`. -/
def teamPlayersM (ps : List Player) (t : String) : Except String (List Player) :=
  match ps with
  | [] => .ok []
  | p :: rest =>
      match teamSubstrM t p with
      | .error e => .error e
      | .ok b =>
          match teamPlayersM rest t with
          | .error e => .error e
          | .ok l => .ok (if b then p :: l else l)

/-- `for team_name in teams: if team_name.lower() in player['team_name'].lower(): ...`
(first match wins, later teams not evaluated). -/
def anyTeamSubstrM (p : Player) : List String → Except String Bool
  | [] => .ok false
  | t :: ts =>
      match teamSubstrM t p with
      | .error e => .error e
      | .ok true => .ok true
      | .ok false => anyTeamSubstrM p ts

/-- Event-type filter: `any(et.lower() in event.get('type','').lower())`,
short-circuiting like the source's `for ... break`. -/
def typeMatches (ets : List String) (e : Event) : Bool :=
  ets.any (fun t => isSubstrS (pyLowerS t) (pyLowerS (e.etype.getD "")))

/-! ## `_find_player` -/

def findByJerseyM (n : Int) (teams : List String) : List Player → Except String (Option Player)
  | [] => .ok none
  | p :: rest =>
      if p.jersey_number == some n then
        if teams.isEmpty then .ok (some p)
        else
          match anyTeamSubstrM p teams with
          | .error e => .error e
          | .ok true => .ok (some p)
          | .ok false => findByJerseyM n teams rest
      else findByJerseyM n teams rest

def findByNameM (ref : String) : List Player → Except String (Option Player)
  | [] => .ok none
  | p :: rest =>
      if isSubstrS (pyLowerS ref) (pyLowerS (fullNameOf p)) then .ok (some p)
      else
        match pyLowerAttr p.last_name with
        | .error e => .error e
        | .ok ln =>
            if isSubstrS (pyLowerS ref) ln then .ok (some p)
            else findByNameM ref rest

/-- `SimpleRugbyDataHandler._find_player`. -/
def findPlayerM (ps : List Player) (ref : String) (teams : List String) :
    Except String (Option Player) :=
  if pyIsDigit ref then findByJerseyM (strToNat ref : Int) teams ps
  else findByNameM ref ps

/-! ## Event statistics (`_get_player_event_stats` / `_get_team_event_stats`) -/

/-- Bump the per-type event counter (insertion-ordered dict). -/
def bumpCount : List (String × Nat) → String → List (String × Nat)
  | [], t => [(t, 1)]
  | (k, n) :: rest, t =>
      if k = t then (k, n + 1) :: rest else (k, n) :: bumpCount rest t

/-- Fold one grade into a per-type aggregate. -/
def updAgg (a : GradeAgg) (g : Int) : GradeAgg :=
  let grades := a.grades ++ [g]
  let cnt := a.count + 1
  let sum := a.sum + g
  let mn := match a.min with
    | none => some g
    | some m => if g < m then some g else some m
  let mx := match a.max with
    | none => some g
    | some m => if m < g then some g else some m
  ⟨grades, cnt, sum, (sum : ℚ) / (cnt : ℚ), mn, mx⟩

def updGradeStats : List (String × GradeAgg) → String → Int → List (String × GradeAgg)
  | [], t, g => [(t, updAgg ⟨[], 0, 0, 0, none, none⟩ g)]
  | (k, a) :: rest, t, g =>
      if k = t then (k, updAgg a g) :: rest else (k, a) :: updGradeStats rest t g

/-- The shared aggregation loop of both stats helpers, applied to the
already id-filtered event list. -/
def eventStatsOf (evs : List Event) (ets : List String) : EventStatsR :=
  let evs := if ets.isEmpty then evs else evs.filter (typeMatches ets)
  evs.foldl
    (fun acc e =>
      let t := e.etype.getD "unknown"
      match extractGrade e with
      | none => ⟨acc.total_events, bumpCount acc.event_counts t, acc.grade_stats⟩
      | some g =>
          ⟨acc.total_events, bumpCount acc.event_counts t,
            updGradeStats acc.grade_stats t g⟩)
    ⟨evs.length, [], []⟩

/-- `_get_player_event_stats`: events with `e.get('player_id') == player_id`. -/
def playerEventStats (events : List Event) (pid : Option Int) (ets : List String) :
    EventStatsR :=
  eventStatsOf (events.filter (fun e => e.player_id == pid)) ets

/-- `_get_team_event_stats`: events with `e.get('team_id') == team_id`. -/
def teamEventStats (events : List Event) (tid : Option Int) (ets : List String) :
    EventStatsR :=
  eventStatsOf (events.filter (fun e => e.team_id == tid)) ets

/-! ## `_handle_get_player_info` -/

/-- The inner `for team_name in teams` loop of the jersey branch: the
player is appended once per matching team. -/
def teamAppendM (p : Player) : List String → List Player → Except String (List Player)
  | [], acc => .ok acc
  | t :: ts, acc =>
      match teamSubstrM t p with
      | .error e => .error e
      | .ok b => teamAppendM p ts (if b then acc ++ [p] else acc)

/-- Jersey-number matching over all players for one reference. -/
def jerseyFoundM (n : Int) (teams : List String) : List Player → List Player →
    Except String (List Player)
  | [], acc => .ok acc
  | p :: rest, acc =>
      if p.jersey_number == some n then
        if teams.isEmpty then jerseyFoundM n teams rest (acc ++ [p])
        else
          match teamAppendM p teams acc with
          | .error e => .error e
          | .ok acc' => jerseyFoundM n teams rest acc'
      else jerseyFoundM n teams rest acc

/-- Name matching over all players for one reference. -/
def nameFoundM (ref : String) : List Player → List Player → Except String (List Player)
  | [], acc => .ok acc
  | p :: rest, acc =>
      if isSubstrS (pyLowerS ref) (pyLowerS (fullNameOf p)) then
        nameFoundM ref rest (acc ++ [p])
      else
        match pyLowerAttr p.last_name with
        | .error e => .error e
        | .ok ln =>
            nameFoundM ref rest (if isSubstrS (pyLowerS ref) ln then acc ++ [p] else acc)

def playerInfoRec (p : Player) : Rec :=
  Rec.playerInfo p.player_id (fullNameOf p) p.jersey_number p.position p.team_name
    p.team_type p.game_id

/-- The outer `for player_ref in players` loop. -/
def playerInfoResults (d : RugbyData) (teams : List String) :
    List String → List Rec → Except String (List Rec)
  | [], acc => .ok acc
  | ref :: refs, acc =>
      let foundM :=
        if pyIsDigit ref then jerseyFoundM (strToNat ref : Int) teams d.players []
        else nameFoundM ref d.players []
      match foundM with
      | .error e => .error e
      | .ok found => playerInfoResults d teams refs (acc ++ found.map playerInfoRec)

def handleGetPlayerInfo (d : RugbyData) (en : Entities) : Except String QueryResult :=
  match playerInfoResults d en.teams en.players [] with
  | .error e => .error e
  | .ok results => .ok (finishQR "get_player_info" results "No matching players found")

/-! ## `_handle_get_stats` -/

def statsPlayerLoop (d : RugbyData) (en : Entities) :
    List String → List Rec → Except String (List Rec)
  | [], acc => .ok acc
  | ref :: refs, acc =>
      match findPlayerM d.players ref en.teams with
      | .error e => .error e
      | .ok none => statsPlayerLoop d en refs acc
      | .ok (some p) =>
          statsPlayerLoop d en refs
            (acc ++ [Rec.playerStats (briefOf p)
              (playerEventStats d.events p.player_id en.event_types) en.event_types])

def statsTeamLoop (d : RugbyData) (en : Entities) :
    List String → List Rec → Except String (List Rec)
  | [], acc => .ok acc
  | tn :: tns, acc =>
      match teamPlayersM d.players tn with
      | .error e => .error e
      | .ok [] => statsTeamLoop d en tns acc
      | .ok (p :: _) =>
          statsTeamLoop d en tns
            (acc ++ [Rec.teamStats tn p.team_id
              (teamEventStats d.events p.team_id en.event_types) en.event_types])

/-- The `results` computation of `_handle_get_stats`: player branch,
else team branch, else empty. -/
def statsResultsM (d : RugbyData) (en : Entities) : Except String (List Rec) :=
  if !en.players.isEmpty then statsPlayerLoop d en en.players []
  else if !en.teams.isEmpty then statsTeamLoop d en en.teams []
  else .ok []

def handleGetStats (d : RugbyData) (en : Entities) : Except String QueryResult :=
  match statsResultsM d en with
  | .error e => .error e
  | .ok results => .ok (finishQR "get_stats" results "No matching data found")

/-! ## `_handle_get_rankings` (also serves `top_stat_in_game`) -/

/-- Team filter for one event: recompute `team_players` for each
requested team, match on the first team whose first player's `team_id`
equals the event's `team_id`. -/
def teamMatchM (ps : List Player) (e : Event) : List String → Except String Bool
  | [] => .ok false
  | t :: ts =>
      match teamPlayersM ps t with
      | .error er => .error er
      | .ok [] => teamMatchM ps e ts
      | .ok (p :: _) =>
          if e.team_id == p.team_id then .ok true else teamMatchM ps e ts

/-- The event filter of `_handle_get_rankings` (type filter first, then
team filter, `continue` on either failing). -/
def relevantEventsM (d : RugbyData) (en : Entities) : Except String (List Event) :=
  let keepM : Event → Except String Bool := fun e =>
    if !en.event_types.isEmpty && !typeMatches en.event_types e then .ok false
    else if !en.teams.isEmpty then teamMatchM d.players e en.teams
    else .ok true
  let rec go : List Event → Except String (List Event)
    | [] => .ok []
    | e :: rest =>
        match keepM e with
        | .error er => .error er
        | .ok b =>
            match go rest with
            | .error er => .error er
            | .ok l => .ok (if b then e :: l else l)
  go d.events

/-- Running per-player accumulator of the ranking loop. -/
structure PStats where
  count : Nat
  grades : List Int
  grade_sum : Int
  avg_grade : ℚ
deriving DecidableEq, Repr

/-- One loop iteration on an existing accumulator: bump the count, then
fold in the grade when `_extract_grade` yields one. -/
def updStat (s : PStats) (g : Option Int) : PStats :=
  match g with
  | none => ⟨s.count + 1, s.grades, s.grade_sum, s.avg_grade⟩
  | some gr =>
      let grades := s.grades ++ [gr]
      let gsum := s.grade_sum + gr
      ⟨s.count + 1, grades, gsum, (gsum : ℚ) / (grades.length : ℚ)⟩

/-- `player_stats[player_id]` update, inserting a zeroed entry first when
the key is new (dict keeps insertion order). -/
def insertUpd : List (Int × PStats) → Int → Option Int → List (Int × PStats)
  | [], pid, g => [(pid, updStat ⟨0, [], 0, 0⟩ g)]
  | (q, s) :: rest, pid, g =>
      if q = pid then (q, updStat s g) :: rest else (q, s) :: insertUpd rest pid g

/-- Python truthiness of `event.get('player_id')`: present and nonzero. -/
def pidTruthy : Option Int → Bool
  | none => false
  | some n => !(n = 0 : Bool)

/-- `if player_id:` — skips both an absent key and a falsy (0) id. -/
def addEvent (stats : List (Int × PStats)) (e : Event) : List (Int × PStats) :=
  match e.player_id with
  | none => stats
  | some pid => if pid = 0 then stats else insertUpd stats pid (extractGrade e)

def playerStats (revs : List Event) : List (Int × PStats) :=
  revs.foldl addEvent []

/-- The sort key `(count, avg_grade if grades else 0)`. -/
def statKey (s : PStats) : Nat × ℚ :=
  (s.count, if s.grades.isEmpty then 0 else s.avg_grade)

/-- Python tuple `>` (lexicographic). -/
def keyGTb (a b : Nat × ℚ) : Bool :=
  decide (b.1 < a.1) || (decide (a.1 = b.1) && decide (b.2 < a.2))

/-- Lexicographic `≤` on the `(count, avg)` sort keys. -/
def lexLE (a b : Nat × ℚ) : Prop :=
  a.1 < b.1 ∨ (a.1 = b.1 ∧ a.2 ≤ b.2)

/-- `max(player_stats.keys(), key=...)` together with the subsequent
`player_stats[top_player_id]` lookup: Python's `max` keeps the first
maximal element in dict (= insertion) order, and the keys are unique, so
iterating entries is equivalent. -/
def maxEntry : List (Int × PStats) → Option (Int × PStats)
  | [] => none
  | e :: es =>
      some (es.foldl
        (fun best x => if keyGTb (statKey x.2) (statKey best.2) then x else best) e)

/-- `for player in self.players: if player['player_id'] == top_player_id`. -/
def findPlayerById : List Player → Int → Option Player
  | [], _ => none
  | p :: rest, pid => if p.player_id == some pid then some p else findPlayerById rest pid

/-- Build the (at most one) ranking record. -/
def rankResults (d : RugbyData) (en : Entities) (revs : List Event) : List Rec :=
  match maxEntry (playerStats revs) with
  | none => []
  | some (wpid, ws) =>
      match findPlayerById d.players wpid with
      | none => []
      | some p =>
          [Rec.ranking "which_team"
            [⟨briefOf p, ws.count, if ws.grades.isEmpty then none else some ws.avg_grade⟩]
            en.event_types revs.length]

def handleGetRankings (d : RugbyData) (en : Entities) : Except String QueryResult :=
  match relevantEventsM d en with
  | .error e => .error e
  | .ok revs => .ok (finishQR "get_rankings" (rankResults d en revs) "No ranking data found")

/-! ## `_handle_get_team_info` -/

def teamInfoLoop (d : RugbyData) : List String → List Rec → Except String (List Rec)
  | [], acc => .ok acc
  | tn :: tns, acc =>
      match teamPlayersM d.players tn with
      | .error e => .error e
      | .ok [] => teamInfoLoop d tns acc
      | .ok (p :: rest) =>
          teamInfoLoop d tns (acc ++ [Rec.teamInfo p.team_name (p :: rest)])

def handleGetTeamInfo (d : RugbyData) (en : Entities) : Except String QueryResult :=
  match teamInfoLoop d en.teams [] with
  | .error e => .error e
  | .ok results => .ok (finishQR "get_team_info" results "No matching teams found")

/-! ## `_handle_compare` -/

def compareLoop (d : RugbyData) (teams : List String) :
    List String → List (Player × EventStatsR) → Except String (List (Player × EventStatsR))
  | [], acc => .ok acc
  | ref :: refs, acc =>
      match findPlayerM d.players ref teams with
      | .error e => .error e
      | .ok none => compareLoop d teams refs acc
      | .ok (some p) =>
          compareLoop d teams refs (acc ++ [(p, playerEventStats d.events p.player_id [])])

/-- The `results` computation of `_handle_compare`: at least two player
references, and at least two of them resolved. -/
def compareResultsM (d : RugbyData) (en : Entities) : Except String (List Rec) :=
  if 2 ≤ en.players.length then
    match compareLoop d en.teams en.players [] with
    | .error e => .error e
    | .ok cd => .ok (if 2 ≤ cd.length then [Rec.comparison cd] else [])
  else .ok []

def handleCompare (d : RugbyData) (en : Entities) : Except String QueryResult :=
  match compareResultsM d en with
  | .error e => .error e
  | .ok results => .ok (finishQR "compare" results "Insufficient data for comparison")

/-! ## `_handle_get_game_info` -/

def gameInfoRec (g : Game) : Rec :=
  Rec.gameInfo g.gid g.round g.start_time g.competition g.venue
    (g.home_team.bind TeamRef.tname) (g.away_team.bind TeamRef.tname)

/-- `_handle_get_game_info`: one record per loaded game, no `error`
argument in the `QueryResult` call (it defaults to `None`). -/
def handleGetGameInfo (d : RugbyData) (_en : Entities) : Except String QueryResult :=
  let results := d.games.map gameInfoRec
  .ok ⟨"get_game_info", results, decide (0 < results.length), none, none⟩

/-! ## `get_data_for_query` -/

/-- The intent dispatch inside the `try`. -/
def dispatchQuery (d : RugbyData) (en : Entities) (intent : String) :
    Except String QueryResult :=
  if intent = "get_player_info" then handleGetPlayerInfo d en
  else if intent = "get_stats" then handleGetStats d en
  else if intent = "get_rankings" || intent = "top_stat_in_game" then handleGetRankings d en
  else if intent = "get_team_info" then handleGetTeamInfo d en
  else if intent = "compare" then handleCompare d en
  else if intent = "get_game_info" then handleGetGameInfo d en
  else .ok ⟨intent, [], false, some ("Unknown intent: " ++ intent), none⟩

/-- `SimpleRugbyDataHandler.get_data_for_query`: the `except` clause
turns any exception into a failed `QueryResult` carrying `str(e)`. -/
def getDataForQuery (d : RugbyData) (en : Entities) (intent : String) : QueryResult :=
  match dispatchQuery d en intent with
  | .ok r => r
  | .error e => ⟨intent, [], false, some e, none⟩


/-! ## Lemmas about the association-list cache

`DistinctKeys l` states the keys of the association list are pairwise
distinct, the invariant an `OrderedDict` maintains by construction. -/

def DistinctKeys (l : List (String × String)) : Prop :=
  l.Pairwise (fun p q => p.1 ≠ q.1)

theorem lookupVal_eq_none_of_fresh {l : List (String × String)} {k : String}
    (h : ∀ p ∈ l, p.1 ≠ k) : lookupVal l k = none := by
  induction l with
  | nil => rfl
  | cons p rest ih =>
      obtain ⟨a, b⟩ := p
      have ha : a ≠ k := h (a, b) (List.mem_cons_self _ _)
      simp only [lookupVal, if_neg ha]
      exact ih (fun q hq => h q (List.mem_cons_of_mem _ hq))

theorem lookupVal_some_mem {l : List (String × String)} {k v : String}
    (h : lookupVal l k = some v) : (k, v) ∈ l := by
  induction l with
  | nil => simp [lookupVal] at h
  | cons p rest ih =>
      obtain ⟨a, b⟩ := p
      by_cases ha : a = k
      · subst ha
        simp only [lookupVal, if_pos rfl] at h
        obtain rfl : b = v := Option.some.inj h
        exact List.mem_cons_self _ _
      · simp only [lookupVal, if_neg ha] at h
        exact List.mem_cons_of_mem _ (ih h)

theorem lookupVal_append_of_none {l₁ l₂ : List (String × String)} {k : String}
    (h : lookupVal l₁ k = none) :
    lookupVal (l₁ ++ l₂) k = lookupVal l₂ k := by
  induction l₁ with
  | nil => rfl
  | cons p rest ih =>
      obtain ⟨a, b⟩ := p
      by_cases ha : a = k
      · simp [lookupVal, ha] at h
      · simp only [List.cons_append, lookupVal, if_neg ha] at h ⊢
        exact ih h

theorem mem_eraseKey {l : List (String × String)} {k : String} {p : String × String} :
    p ∈ eraseKey l k ↔ p ∈ l ∧ p.1 ≠ k := by
  simp [eraseKey, List.mem_filter]

theorem eraseKey_of_fresh {l : List (String × String)} {k : String}
    (h : ∀ p ∈ l, p.1 ≠ k) : eraseKey l k = l := by
  rw [eraseKey, List.filter_eq_self]
  intro p hp
  simpa using h p hp


theorem length_eraseKey_lt {l : List (String × String)} {k v : String}
    (h : (k, v) ∈ l) : (eraseKey l k).length < l.length := by
  induction l with
  | nil => simp at h
  | cons p rest ih =>
      obtain ⟨a, b⟩ := p
      by_cases ha : a = k
      · have hle : (eraseKey rest k).length ≤ rest.length :=
          List.length_filter_le _ rest
        simp [eraseKey, List.filter_cons, ha] at hle ⊢
        omega
      · rcases List.mem_cons.mp h with hh | hh
        · exact absurd (congrArg Prod.fst hh) (fun e => ha (by simpa using e.symm))
        · have hlt := ih hh
          simp [eraseKey, List.filter_cons, ha] at hlt ⊢
          omega

theorem length_eraseKey_distinct {l : List (String × String)} {k v : String}
    (hd : DistinctKeys l) (h : (k, v) ∈ l) :
    (eraseKey l k).length + 1 = l.length := by
  induction l with
  | nil => simp at h
  | cons p rest ih =>
      obtain ⟨a, b⟩ := p
      rw [DistinctKeys, List.pairwise_cons] at hd
      by_cases ha : a = k
      · have hrest : eraseKey rest k = rest := by
          apply eraseKey_of_fresh
          intro q hq
          have := hd.1 q hq
          simp at this
          exact fun e => this (by rw [ha, e])
        simp only [eraseKey] at hrest
        simp [eraseKey, List.filter_cons, ha, hrest]
      · rcases List.mem_cons.mp h with hh | hh
        · exact absurd (congrArg Prod.fst hh) (fun e => ha (by simpa using e.symm))
        · have := ih hd.2 hh
          simp [eraseKey, List.filter_cons, ha] at this ⊢
          omega

theorem lookupVal_of_mem_distinct {l : List (String × String)} {k v : String}
    (hd : DistinctKeys l) (h : (k, v) ∈ l) : lookupVal l k = some v := by
  induction l with
  | nil => simp at h
  | cons p rest ih =>
      obtain ⟨a, b⟩ := p
      rw [DistinctKeys, List.pairwise_cons] at hd
      rcases List.mem_cons.mp h with hh | hh
      · obtain ⟨h1, h2⟩ := Prod.mk.injEq .. ▸ hh
        simp [lookupVal, h1, h2]
      · have hak : a ≠ k := by
          intro e
          have := hd.1 (k, v) hh
          simp at this
          exact this e
        simp only [lookupVal, if_neg hak]
        exact ih hd.2 hh

theorem applyOp_max_size (c : LRUCache) (op : CacheOp) :
    (applyOp c op).max_size = c.max_size := by
  cases op with
  | get k =>
      simp only [applyOp, LRUCache.getS]
      cases lookupVal c.cache k <;> rfl
  | put k v =>
      simp only [applyOp, LRUCache.putS]
      cases lookupVal c.cache k
      · by_cases h : c.max_size ≤ c.cache.length <;> simp [h]
      · rfl
  | clear => rfl

theorem applyOp_length_le (c : LRUCache) (op : CacheOp)
    (h1 : 1 ≤ c.max_size) (h2 : c.cache.length ≤ c.max_size) :
    (applyOp c op).cache.length ≤ c.max_size := by
  cases op with
  | get k =>
      simp only [applyOp, LRUCache.getS]
      cases hl : lookupVal c.cache k with
      | none => exact h2
      | some v =>
          have hm := lookupVal_some_mem hl
          have hlt := length_eraseKey_lt hm
          simp only [List.length_append, List.length_singleton]
          omega
  | put k v =>
      simp only [applyOp, LRUCache.putS]
      cases hl : lookupVal c.cache k with
      | some w =>
          have hm := lookupVal_some_mem hl
          have hlt := length_eraseKey_lt hm
          simp only [List.length_append, List.length_singleton]
          omega
      | none =>
          by_cases hf : c.max_size ≤ c.cache.length
          · have ht : c.cache.tail.length = c.cache.length - 1 := List.length_tail _
            simp only [if_pos hf, List.length_append, List.length_singleton]
            omega
          · simp only [if_neg hf, List.length_append, List.length_singleton]
            omega
  | clear =>
      simp [applyOp, LRUCache.clearS]

theorem runOps_max_size (ops : List CacheOp) (c : LRUCache) :
    (runOps c ops).max_size = c.max_size := by
  induction ops generalizing c with
  | nil => rfl
  | cons op ops ih =>
      show (runOps (applyOp c op) ops).max_size = c.max_size
      rw [ih, applyOp_max_size]

theorem runOps_length_le (ops : List CacheOp) (c : LRUCache)
    (h1 : 1 ≤ c.max_size) (h2 : c.cache.length ≤ c.max_size) :
    (runOps c ops).cache.length ≤ c.max_size := by
  induction ops generalizing c with
  | nil => exact h2
  | cons op ops ih =>
      show (runOps (applyOp c op) ops).cache.length ≤ c.max_size
      have hmax := applyOp_max_size c op
      have := ih (applyOp c op) (hmax ▸ h1) (by rw [hmax]; exact applyOp_length_le c op h1 h2)
      rwa [hmax] at this

/-- Filling a cache that has room with fresh, pairwise-distinct keys
appends them in order. -/
theorem putAll_fresh : ∀ (kvs : List (String × String)) (c : LRUCache),
    c.cache.length + kvs.length ≤ c.max_size →
    DistinctKeys kvs →
    (∀ kv ∈ kvs, ∀ p ∈ c.cache, p.1 ≠ kv.1) →
    putAll c kvs = ⟨c.max_size, c.cache ++ kvs⟩
  | [], c, _, _, _ => by simp [putAll]
  | (k, v) :: kvs, c, hroom, hd, hfresh => by
      rw [DistinctKeys, List.pairwise_cons] at hd
      have hnone : lookupVal c.cache k = none :=
        lookupVal_eq_none_of_fresh (fun p hp => hfresh (k, v) (List.mem_cons_self _ _) p hp)
      have hlt : ¬ c.max_size ≤ c.cache.length := by
        simp only [List.length_cons] at hroom
        omega
      have hstep : c.putS k v = ⟨c.max_size, c.cache ++ [(k, v)]⟩ := by
        simp [LRUCache.putS, hnone, hlt]
      have hrec := putAll_fresh kvs ⟨c.max_size, c.cache ++ [(k, v)]⟩
        (by simp only [List.length_append, List.length_singleton, List.length_cons,
              List.length_nil] at hroom ⊢; omega)
        hd.2
        (by
          intro kv hkv p hp
          rcases List.mem_append.mp hp with hp | hp
          · exact hfresh kv (List.mem_cons_of_mem _ hkv) p hp
          · obtain rfl : p = (k, v) := List.mem_singleton.mp hp
            exact hd.1 kv hkv)
      show putAll (c.putS k v) kvs = _
      rw [hstep, hrec]
      simp

/-- Putting `max_size + 1` distinct keys into a fresh cache: the first
`max_size` fill it up in order, the last insertion evicts the head. -/
theorem putAll_scenario (n : Nat) (hn : 2 ≤ n) (k0 v0 kl vl : String)
    (ks : List (String × String)) (hlen : ks.length = n - 1)
    (hd : DistinctKeys ((k0, v0) :: ks ++ [(kl, vl)])) :
    putAll (LRUCache.emptyC n) ((k0, v0) :: ks ++ [(kl, vl)]) = ⟨n, ks ++ [(kl, vl)]⟩ := by
  have hd' : (((k0, v0) :: ks) ++ [(kl, vl)]).Pairwise (fun p q => p.1 ≠ q.1) := hd
  have hsplit := List.pairwise_append.mp hd'
  have hP : putAll (LRUCache.emptyC n) ((k0, v0) :: ks) = ⟨n, (k0, v0) :: ks⟩ := by
    have := putAll_fresh ((k0, v0) :: ks) (LRUCache.emptyC n)
      (by simp [LRUCache.emptyC]; omega) hsplit.1 (by intro kv _ p hp; simp [LRUCache.emptyC] at hp)
    simpa [LRUCache.emptyC] using this
  have hnone : lookupVal ((k0, v0) :: ks) kl = none := by
    apply lookupVal_eq_none_of_fresh
    intro p hp
    exact hsplit.2.2 p hp (kl, vl) (List.mem_singleton_self _)
  have hstep : LRUCache.putS ⟨n, (k0, v0) :: ks⟩ kl vl = ⟨n, ks ++ [(kl, vl)]⟩ := by
    simp only [LRUCache.putS, hnone]
    rw [if_pos (by simp only [List.length_cons]; omega)]
    rfl
  show putAll (LRUCache.emptyC n) (((k0, v0) :: ks) ++ [(kl, vl)]) = _
  rw [putAll, List.foldl_append]
  show LRUCache.putS (putAll (LRUCache.emptyC n) ((k0, v0) :: ks)) kl vl = _
  rw [hP, hstep]

/-- A `get` on a present key of a full cache with distinct keys, followed
by a `put` of a fresh key, leaves the got key retrievable. -/
theorem get_put_preserves (n : Nat) (hn : 2 ≤ n) (L : List (String × String))
    (hd : DistinctKeys L) (hL : L.length = n) (k v k' v'' : String)
    (hmem : (k, v) ∈ L) (hfresh : ∀ p ∈ L, p.1 ≠ k') :
    lookupVal ((LRUCache.putS ((LRUCache.getS ⟨n, L⟩ k).2) k' v'').cache) k = some v := by
  have hlook : lookupVal L k = some v := lookupVal_of_mem_distinct hd hmem
  have hget : (LRUCache.getS ⟨n, L⟩ k).2 = ⟨n, eraseKey L k ++ [(k, v)]⟩ := by
    simp [LRUCache.getS, hlook]
  rw [hget]
  have herlen : (eraseKey L k).length + 1 = n := by
    rw [length_eraseKey_distinct hd hmem, hL]
  have hnone : lookupVal (eraseKey L k ++ [(k, v)]) k' = none := by
    apply lookupVal_eq_none_of_fresh
    intro p hp
    rcases List.mem_append.mp hp with hp | hp
    · exact hfresh p (mem_eraseKey.mp hp).1
    · obtain rfl : p = (k, v) := List.mem_singleton.mp hp
      exact hfresh (k, v) hmem
  have hfull : n ≤ (eraseKey L k ++ [(k, v)]).length := by
    simp only [List.length_append, List.length_singleton]
    omega
  have hput : LRUCache.putS ⟨n, eraseKey L k ++ [(k, v)]⟩ k' v'' =
      ⟨n, (eraseKey L k ++ [(k, v)]).tail ++ [(k', v'')]⟩ := by
    simp only [LRUCache.putS, hnone]
    rw [if_pos hfull]
  rw [hput]
  match her : eraseKey L k with
  | [] => rw [her] at herlen; simp at herlen; omega
  | h0 :: t =>
      have ht : ∀ p ∈ t, p.1 ≠ k := by
        intro p hp
        have : p ∈ eraseKey L k := by rw [her]; exact List.mem_cons_of_mem _ hp
        exact (mem_eraseKey.mp this).2
      have htl : ((h0 :: t) ++ [(k, v)]).tail = t ++ [(k, v)] := rfl
      simp only [htl]
      rw [List.append_assoc]
      rw [lookupVal_append_of_none (lookupVal_eq_none_of_fresh ht)]
      simp [lookupVal]

/-- C2: for every `LRUCache` constructed with `max_size = n ≥ 1` and
every finite sequence of `get`/`put`/`clear` operations, the number of
entries after each operation is at most `max_size` (every prefix of a
sequence is itself a sequence, so quantifying over all sequences bounds
the size after each step). -/
theorem C2_lru_cache_bounded (n : Nat) (hn : 1 ≤ n) (ops : List CacheOp) :
    (runOps (LRUCache.emptyC n) ops).cache.length ≤ n := by
  exact runOps_length_le ops (LRUCache.emptyC n) hn (by simp [LRUCache.emptyC])

/-- Witness for C2 at `max_size = 2` and a concrete operation sequence. -/
theorem C2_lru_cache_bounded_witness :
    (runOps (LRUCache.emptyC 2)
      [CacheOp.put "a" "1", CacheOp.put "b" "2", CacheOp.put "c" "3",
       CacheOp.get "a", CacheOp.clear, CacheOp.put "d" "4"]).cache.length ≤ 2 :=
  C2_lru_cache_bounded 2 (by norm_num) _

/-- C3: for every `LRUCache` with `max_size = n ≥ 2`, putting `n + 1`
pairwise-distinct keys into a fresh cache evicts exactly the
least-recently-used (first-inserted) key — the final contents are the
later `n` entries in order, the first key no longer resolves, every
other key still resolves to its value — and a `get` on any present key
promotes it to most-recently-used, so it survives the eviction caused by
a following `put` of a fresh key. -/
theorem C3_lru_eviction_and_promotion (n : Nat) (hn : 2 ≤ n)
    (k0 v0 kl vl : String) (ks : List (String × String))
    (hlen : ks.length = n - 1)
    (hd : DistinctKeys ((k0, v0) :: ks ++ [(kl, vl)])) :
    (putAll (LRUCache.emptyC n) ((k0, v0) :: ks ++ [(kl, vl)])).cache = ks ++ [(kl, vl)]
    ∧ lookupVal (putAll (LRUCache.emptyC n) ((k0, v0) :: ks ++ [(kl, vl)])).cache k0 = none
    ∧ (∀ kv ∈ ks ++ [(kl, vl)],
        lookupVal (putAll (LRUCache.emptyC n) ((k0, v0) :: ks ++ [(kl, vl)])).cache kv.1
          = some kv.2)
    ∧ (∀ k v k' v'', (k, v) ∈ ks ++ [(kl, vl)] →
        (∀ kv ∈ (k0, v0) :: ks ++ [(kl, vl)], kv.1 ≠ k') →
        lookupVal ((LRUCache.putS
            ((putAll (LRUCache.emptyC n) ((k0, v0) :: ks ++ [(kl, vl)])).getS k).2
            k' v'').cache) k = some v) := by
  have hput := putAll_scenario n hn k0 v0 kl vl ks hlen hd
  have hdc := List.pairwise_cons.mp hd
  have hd2 : DistinctKeys (ks ++ [(kl, vl)]) := hdc.2
  have hL : (ks ++ [(kl, vl)]).length = n := by
    simp only [List.length_append, List.length_singleton]
    omega
  refine ⟨by rw [hput], ?_, ?_, ?_⟩
  · rw [hput]
    apply lookupVal_eq_none_of_fresh
    intro p hp
    exact fun e => (hdc.1 p hp) e.symm
  · intro kv hkv
    rw [hput]
    exact lookupVal_of_mem_distinct hd2 (by simpa using hkv)
  · intro k v k' v'' hmem hfresh
    rw [hput]
    apply get_put_preserves n hn (ks ++ [(kl, vl)]) hd2 hL k v k' v'' hmem
    intro p hp
    exact hfresh p (List.mem_cons_of_mem _ hp)

/-- Witness for C3 at `max_size = 2` with keys `a`, `b`, `c`: `a` is
evicted, `b` survives, and after `get b` a further fresh `put d` evicts
`c`, not `b`. -/
theorem C3_lru_eviction_and_promotion_witness :
    lookupVal (putAll (LRUCache.emptyC 2) (("a", "1") :: [("b", "2")] ++ [("c", "3")])).cache "a"
      = none
    ∧ lookupVal
        (putAll (LRUCache.emptyC 2) (("a", "1") :: [("b", "2")] ++ [("c", "3")])).cache "b"
      = some "2"
    ∧ lookupVal ((LRUCache.putS
        ((putAll (LRUCache.emptyC 2) (("a", "1") :: [("b", "2")] ++ [("c", "3")])).getS "b").2
        "d" "4").cache) "b" = some "2" := by
  have h := C3_lru_eviction_and_promotion 2 (by norm_num) "a" "1" "c" "3" [("b", "2")]
    (by decide) (by rw [DistinctKeys]; decide)
  exact ⟨h.2.1, h.2.2.1 ("b", "2") (by decide), h.2.2.2 "b" "2" "d" "4" (by decide) (by decide)⟩

/-- On a cache miss, `get` returns `None` and leaves the cache unchanged. -/
theorem getS_of_none {c : LRUCache} {k : String}
    (h : lookupVal c.cache k = none) : c.getS k = (none, c) := by
  simp [LRUCache.getS, h]

/-- C1 counterexample: on a fresh cache, a query whose service call
raises still returns `get_stats` but mutates the cache, contradicting
"does not store any entry in the cache for that query's normalized key
(the cache contents are unchanged by the failed call)". -/
theorem C1_counterexample :
    (IntentClassifier.classify ⟨defaultIntents, some (LRUCache.emptyC 256), 0, 0⟩
        "Who won the game" (.error ())).1 = "get_stats"
    ∧ (IntentClassifier.classify ⟨defaultIntents, some (LRUCache.emptyC 256), 0, 0⟩
        "Who won the game" (.error ())).2.cache ≠ some (LRUCache.emptyC 256) := by
  decide

/-- C1 (amended): for a nonempty query that misses the cache, if the
service call inside `classify` raises, `classify` returns the default
`get_stats` and stores `get_stats` in the cache under the query's
normalized key (`cache.put(norm, "get_stats")`). -/
theorem C1_failed_call_caches_default (c : IntentClassifier) (q : String) (ca : LRUCache)
    (hca : c.cache = some ca)
    (hne : pyStripS q ≠ "")
    (hmiss : lookupVal ca.cache (pyLowerS (pyStripS q)) = none) :
    (c.classify q (.error ())).1 = "get_stats"
    ∧ (c.classify q (.error ())).2.cache
      = some (ca.putS (pyLowerS (pyStripS q)) "get_stats") := by
  have hget := getS_of_none (c := ca) hmiss
  simp [IntentClassifier.classify, hne, hca, hget, IntentClassifier.classifyWithLLM]

/-- Witness for the amended C1 on a fresh 256-entry cache. -/
theorem C1_failed_call_caches_default_witness :
    (IntentClassifier.classify ⟨defaultIntents, some (LRUCache.emptyC 256), 0, 0⟩
        "Who won the game" (.error ())).1 = "get_stats"
    ∧ (IntentClassifier.classify ⟨defaultIntents, some (LRUCache.emptyC 256), 0, 0⟩
        "Who won the game" (.error ())).2.cache
      = some ((LRUCache.emptyC 256).putS (pyLowerS (pyStripS "Who won the game")) "get_stats") :=
  C1_failed_call_caches_default ⟨defaultIntents, some (LRUCache.emptyC 256), 0, 0⟩
    "Who won the game" (LRUCache.emptyC 256) rfl (by decide) (by decide)

/-- C4: the layered parser with the default seven-label set maps (i) a
JSON object embedded in commentary to its valid `intent`; (ii) an input
with no parseable JSON but an `"intent": "..."` substring to that label;
(iii) bare-label text to the first non-`get_stats` label found in
label-list order; and (iv) any input on which stage A yields nothing,
the stage-B pattern does not match, and no valid label occurs as a whole
word, to `get_stats`. -/
theorem C4_parser_fallbacks :
    parseLLMJsonOrLabel defaultIntents
        "here you go: \x7b\x22intent\x22:\x22compare\x22\x7d thanks" = "compare"
    ∧ parseLLMJsonOrLabel defaultIntents
        "the model replied with \x22intent\x22: \x22get_roster\x22 as requested" = "get_roster"
    ∧ parseLLMJsonOrLabel defaultIntents
        "I think get_result is right, get_stats too" = "get_result"
    ∧ ∀ raw : String,
        stageA defaultIntents (pyStripL raw.data) = none →
        stageBScan (pyStripL raw.data) = none →
        defaultIntents.filter
            (fun lbl => wordSearchGo lbl.data (pyLowerL (pyStripL raw.data)) none) = [] →
        parseLLMJsonOrLabel defaultIntents raw = "get_stats" := by
  refine ⟨by decide, by decide, by decide, ?_⟩
  intro raw h1 h2 h3
  simp [parseLLMJsonOrLabel, h1, stageB, h2, stageC, h3]

/-- Witness for the universal branch of C4 on unparseable gibberish. -/
theorem C4_parser_fallbacks_witness :
    parseLLMJsonOrLabel defaultIntents "complete gibberish!!" = "get_stats" :=
  C4_parser_fallbacks.2.2.2 "complete gibberish!!" (by decide) (by decide) (by decide)

/-- C5 counterexample: the response `"complex error"` contains the
substring `"error"`, yet `classify_query` returns `"complex"` — the
first-token mapping fires before the error-substring check, so "any
response containing 'error' ... yields 'simple'" is false as stated. -/
theorem C5_counterexample :
    isSubstrS "error" (routeResponse "complex error") = true
    ∧ classifyQuery (.ok "complex error") = "complex" := by
  decide

/-- C5 (amended): `classify_query` never raises and always returns
`"simple"` or `"complex"`; a first stripped token `simple`/`s` yields
`simple`, `complex`/`c` yields `complex`, a pure-digit first token
yields `simple`; a response containing `"error"` or `"llmclient"` yields
`simple` provided its first token is none of the recognised forms (the
token mappings fire first); and any other unrecognized value defaults to
`simple`. -/
theorem C5_route_normalization :
    (∀ o : Except Unit String, classifyQuery o = "simple" ∨ classifyQuery o = "complex")
    ∧ classifyQuery (.error ()) = "simple"
    ∧ (∀ raw : String, routeFirst raw = "simple" ∨ routeFirst raw = "s" →
        classifyQuery (.ok raw) = "simple")
    ∧ (∀ raw : String, routeFirst raw = "complex" ∨ routeFirst raw = "c" →
        classifyQuery (.ok raw) = "complex")
    ∧ (∀ raw : String, pyIsDigit (routeFirst raw) = true →
        classifyQuery (.ok raw) = "simple")
    ∧ (∀ raw : String, routeFirst raw ≠ "simple" → routeFirst raw ≠ "s" →
        routeFirst raw ≠ "complex" → routeFirst raw ≠ "c" →
        (isSubstrS "error" (routeResponse raw) || isSubstrS "llmclient" (routeResponse raw))
          = true →
        classifyQuery (.ok raw) = "simple")
    ∧ (∀ raw : String, routeFirst raw ≠ "simple" → routeFirst raw ≠ "s" →
        routeFirst raw ≠ "complex" → routeFirst raw ≠ "c" →
        classifyQuery (.ok raw) = "simple") := by
  refine ⟨?_, rfl, ?_, ?_, ?_, ?_, ?_⟩
  · intro o
    cases o with
    | error e => exact Or.inl rfl
    | ok raw =>
        simp only [classifyQuery]
        by_cases h : routeNormalized raw ≠ "simple" ∧ routeNormalized raw ≠ "complex"
        · rw [if_pos h]
          exact Or.inl rfl
        · rw [if_neg h]
          rcases not_and_or.mp h with h | h
          · exact Or.inl (not_not.mp h)
          · exact Or.inr (not_not.mp h)
  · intro raw h
    have hn : routeNormalized raw = "simple" := by
      rcases h with h | h <;> simp [routeNormalized, h]
    simp [classifyQuery, hn]
  · intro raw h
    have hne : routeFirst raw ≠ "simple" ∧ routeFirst raw ≠ "s" := by
      rcases h with h | h <;> simp [h]
    have hn : routeNormalized raw = "complex" := by
      rcases h with h | h <;> simp [routeNormalized, h, hne.1, hne.2]
    simp [classifyQuery, hn]
  · intro raw h
    by_cases h1 : routeFirst raw = "simple" ∨ routeFirst raw = "s"
    · have hn : routeNormalized raw = "simple" := by
        rcases h1 with h1 | h1 <;> simp [routeNormalized, h1]
      simp [classifyQuery, hn]
    · have h2 : routeFirst raw ≠ "complex" ∧ routeFirst raw ≠ "c" := by
        constructor <;> intro e <;> rw [e] at h <;> simp [pyIsDigit] at h
      push_neg at h1
      have hn : routeNormalized raw = "simple" := by
        simp [routeNormalized, h1.1, h1.2, h2.1, h2.2, h]
      simp [classifyQuery, hn]
  · intro raw h1 h2 h3 h4 herr
    by_cases hdig : pyIsDigit (routeFirst raw) = true
    · have hn : routeNormalized raw = "simple" := by
        simp [routeNormalized, h1, h2, h3, h4, hdig]
      simp [classifyQuery, hn]
    · have hn : routeNormalized raw = "simple" := by
        simp [routeNormalized, h1, h2, h3, h4, hdig, herr]
      simp [classifyQuery, hn]
  · intro raw h1 h2 h3 h4
    by_cases hdig : pyIsDigit (routeFirst raw) = true
    · have hn : routeNormalized raw = "simple" := by
        simp [routeNormalized, h1, h2, h3, h4, hdig]
      simp [classifyQuery, hn]
    · by_cases herr : (isSubstrS "error" (routeResponse raw)
          || isSubstrS "llmclient" (routeResponse raw)) = true
      · have hn : routeNormalized raw = "simple" := by
          simp [routeNormalized, h1, h2, h3, h4, hdig, herr]
        simp [classifyQuery, hn]
      · have hn : routeNormalized raw = routeFirst raw := by
          simp [routeNormalized, h1, h2, h3, h4, hdig, herr]
        simp [classifyQuery, hn, h1, h3]

/-- Witness for C5 on concrete responses: `"  Complex; "` routes
`complex` via the stripped first token, and the error-sentinel reply
routes `simple` via the substring rule. -/
theorem C5_route_normalization_witness :
    classifyQuery (.ok "  Complex; ") = "complex"
    ∧ classifyQuery (.ok "[LLMClient] ERROR") = "simple" :=
  ⟨C5_route_normalization.2.2.2.1 "  Complex; " (Or.inl (by decide)),
   C5_route_normalization.2.2.2.2.2.1 "[LLMClient] ERROR" (by decide) (by decide)
     (by decide) (by decide) (by decide)⟩

/-- C6: `_extract_grade` returns the first integer-parseable grade in
the order `metadata.grade` then top-level `grade`, and `None` when
neither parses; in particular `metadata.grade="7"` with no top-level
grade yields 7, a non-numeric grade yields absence rather than an error,
and a non-numeric nested grade falls through to the top-level one. -/
theorem C6_grade_resolution :
    (∀ (e : Event) (n : Int), pyInt (nestedGradeVal e) = some n → extractGrade e = some n)
    ∧ (∀ e : Event, pyInt (nestedGradeVal e) = none →
        extractGrade e = pyInt (topGradeVal e))
    ∧ extractGrade ⟨some "try", some 1, none, some [("grade", Value.vstr "7")], none⟩ = some 7
    ∧ extractGrade ⟨some "try", some 1, none, some [("grade", Value.vstr "MVP")], none⟩ = none
    ∧ extractGrade ⟨some "try", some 1, none, some [("grade", Value.vstr "MVP")],
        some (Value.vint 5)⟩ = some 5 := by
  refine ⟨?_, ?_, by decide, by decide, by decide⟩
  · intro e n h
    simp [extractGrade, h]
  · intro e h
    simp [extractGrade, h]

/-- Witness for C6's universal parts on a concrete event. -/
theorem C6_grade_resolution_witness :
    extractGrade ⟨some "kick", some 2, none, some [("grade", Value.vstr "8")], none⟩ = some 8 :=
  C6_grade_resolution.1 _ 8 (by decide)

/-! ## Lemmas for the ranking selection -/

theorem lexLE_refl (a : Nat × ℚ) : lexLE a a := Or.inr ⟨rfl, le_refl _⟩

theorem lexLE_trans {a b c : Nat × ℚ} (h1 : lexLE a b) (h2 : lexLE b c) : lexLE a c := by
  rcases h1 with h1 | ⟨h1, h1'⟩
  · rcases h2 with h2 | ⟨h2, _⟩
    · exact Or.inl (lt_trans h1 h2)
    · exact Or.inl (h2 ▸ h1)
  · rcases h2 with h2 | ⟨h2, h2'⟩
    · exact Or.inl (h1 ▸ h2)
    · exact Or.inr ⟨h1.trans h2, le_trans h1' h2'⟩

theorem lexLE_of_gtb {a b : Nat × ℚ} (h : keyGTb a b = true) : lexLE b a := by
  rw [keyGTb] at h
  simp only [Bool.or_eq_true, Bool.and_eq_true, decide_eq_true_eq] at h
  rcases h with h | ⟨h1, h2⟩
  · exact Or.inl h
  · exact Or.inr ⟨h1.symm, le_of_lt h2⟩

theorem lexLE_of_not_gtb {a b : Nat × ℚ} (h : keyGTb a b = false) : lexLE a b := by
  rw [keyGTb] at h
  simp only [Bool.or_eq_false_iff, Bool.and_eq_false_iff, decide_eq_false_iff_not,
    not_lt] at h
  obtain ⟨h1, h2⟩ := h
  rcases lt_or_eq_of_le h1 with hlt | heq
  · exact Or.inl hlt
  · refine Or.inr ⟨heq, ?_⟩
    rcases h2 with h2 | h2
    · exact absurd heq h2
    · simpa using h2

/-- The Python `max` fold keeps an element whose key dominates the
accumulator and every scanned element. -/
theorem maxFold_ge (l : List (Int × PStats)) : ∀ acc : Int × PStats,
    lexLE (statKey acc.2)
      (statKey (l.foldl
        (fun best x => if keyGTb (statKey x.2) (statKey best.2) then x else best) acc).2)
    ∧ ∀ x ∈ l,
      lexLE (statKey x.2)
        (statKey (l.foldl
          (fun best x => if keyGTb (statKey x.2) (statKey best.2) then x else best) acc).2) := by
  induction l with
  | nil =>
      intro acc
      exact ⟨lexLE_refl _, by simp⟩
  | cons y l ih =>
      intro acc
      by_cases hy : keyGTb (statKey y.2) (statKey acc.2) = true
      · have hstep : (y :: l).foldl
            (fun best x => if keyGTb (statKey x.2) (statKey best.2) then x else best) acc
            = l.foldl
              (fun best x => if keyGTb (statKey x.2) (statKey best.2) then x else best) y := by
          simp [List.foldl_cons, hy]
        rw [hstep]
        refine ⟨lexLE_trans (lexLE_of_gtb hy) (ih y).1, ?_⟩
        intro x hx
        rcases List.mem_cons.mp hx with hx | hx
        · exact hx ▸ (ih y).1
        · exact (ih y).2 x hx
      · have hstep : (y :: l).foldl
            (fun best x => if keyGTb (statKey x.2) (statKey best.2) then x else best) acc
            = l.foldl
              (fun best x => if keyGTb (statKey x.2) (statKey best.2) then x else best) acc := by
          simp [List.foldl_cons, hy]
        rw [hstep]
        refine ⟨(ih acc).1, ?_⟩
        intro x hx
        rcases List.mem_cons.mp hx with hx | hx
        · exact hx ▸ lexLE_trans (lexLE_of_not_gtb (by simpa using hy)) (ih acc).1
        · exact (ih acc).2 x hx

/-- The selected entry's key is lexicographically greatest. -/
theorem maxEntry_ge {l : List (Int × PStats)} {m : Int × PStats}
    (h : maxEntry l = some m) : ∀ x ∈ l, lexLE (statKey x.2) (statKey m.2) := by
  cases l with
  | nil => simp [maxEntry] at h
  | cons e es =>
      simp only [maxEntry, Option.some.injEq] at h
      intro x hx
      rcases List.mem_cons.mp hx with hx | hx
      · subst hx
        exact h ▸ (maxFold_ge es x).1
      · exact h ▸ (maxFold_ge es e).2 x hx

theorem insertUpd_ne_nil (l : List (Int × PStats)) (pid : Int) (g : Option Int) :
    insertUpd l pid g ≠ [] := by
  cases l with
  | nil => simp [insertUpd]
  | cons p rest =>
      obtain ⟨q, s⟩ := p
      by_cases h : q = pid <;> simp [insertUpd, h]

theorem addEvent_ne_nil {s : List (Int × PStats)} (e : Event) (h : s ≠ []) :
    addEvent s e ≠ [] := by
  rw [addEvent]
  cases e.player_id with
  | none => exact h
  | some pid =>
      by_cases hz : pid = 0
      · simp only [if_pos hz]
        exact h
      · simp only [if_neg hz]
        exact insertUpd_ne_nil _ _ _

theorem foldl_addEvent_ne_nil (l : List Event) : ∀ s, s ≠ [] → l.foldl addEvent s ≠ [] := by
  induction l with
  | nil => intro s h; exact h
  | cons e l ih =>
      intro s h
      exact ih (addEvent s e) (addEvent_ne_nil e h)

theorem addEvent_truthy_ne_nil (s : List (Int × PStats)) (e : Event)
    (h : pidTruthy e.player_id = true) : addEvent s e ≠ [] := by
  rw [addEvent]
  cases hp : e.player_id with
  | none => rw [hp] at h; simp [pidTruthy] at h
  | some pid =>
      have hz : ¬ pid = 0 := by
        rw [hp] at h
        simpa [pidTruthy] using h
      simp only [if_neg hz]
      exact insertUpd_ne_nil _ _ _

theorem foldl_addEvent_mem_ne_nil (l : List Event) : ∀ (s : List (Int × PStats)) (e : Event),
    e ∈ l → pidTruthy e.player_id = true → l.foldl addEvent s ≠ [] := by
  induction l with
  | nil => intro s e he _; simp at he
  | cons e' l ih =>
      intro s e he ht
      rcases List.mem_cons.mp he with hh | hh
      · subst hh
        exact foldl_addEvent_ne_nil l _ (addEvent_truthy_ne_nil s e ht)
      · exact ih (addEvent s e') e hh ht

theorem playerStats_ne_nil {revs : List Event}
    (h : ∃ e ∈ revs, pidTruthy e.player_id = true) : playerStats revs ≠ [] := by
  rw [playerStats]
  obtain ⟨e, he, ht⟩ := h
  exact foldl_addEvent_mem_ne_nil revs [] e he ht

/-- C7: both `top_stat_in_game` and `get_rankings` dispatch to the
ranking handler; whenever some filtered event carries a truthy
`player_id` a maximal entry exists; and when the winning `player_id`
resolves in the loaded player list, the handler emits exactly one
top-performer record — the player whose `(count, avg grade, 0 when
ungraded)` pair is lexicographically greatest (count dominating, average
grade breaking ties) — together with the total number of events
considered. -/
theorem C7_rankings_top_performer :
    (∀ (d : RugbyData) (en : Entities),
        dispatchQuery d en "top_stat_in_game" = handleGetRankings d en
        ∧ dispatchQuery d en "get_rankings" = handleGetRankings d en)
    ∧ (∀ revs : List Event, (∃ e ∈ revs, pidTruthy e.player_id = true) →
        (maxEntry (playerStats revs)).isSome = true)
    ∧ (∀ (d : RugbyData) (en : Entities) (revs : List Event) (wpid : Int) (ws : PStats)
        (p : Player),
        relevantEventsM d en = .ok revs →
        maxEntry (playerStats revs) = some (wpid, ws) →
        findPlayerById d.players wpid = some p →
        handleGetRankings d en = .ok ⟨"get_rankings",
          [Rec.ranking "which_team"
            [⟨briefOf p, ws.count, if ws.grades.isEmpty then none else some ws.avg_grade⟩]
            en.event_types revs.length], true, none, none⟩
        ∧ ∀ x ∈ playerStats revs, lexLE (statKey x.2) (statKey ws)) := by
  refine ⟨fun d en => ⟨rfl, rfl⟩, ?_, ?_⟩
  · intro revs h
    have hne := playerStats_ne_nil h
    cases hps : playerStats revs with
    | nil => exact absurd hps hne
    | cons e es => simp [maxEntry]
  · intro d en revs wpid ws p hrev hmax hfind
    constructor
    · simp [handleGetRankings, hrev, rankResults, hmax, hfind, finishQR]
    · intro x hx
      exact maxEntry_ge hmax x hx


/-- Witness for C7 on the tie-break scenario of the spec: player 1 has
3 events with grades 8 and 9, player 2 has 3 events with grade 5; the
top performer is player 1 (equal count, higher average grade 17/2). -/
theorem C7_rankings_top_performer_witness :
    handleGetRankings
      ⟨[],
       [⟨some "try", some 1, some 10, some [("grade", Value.vint 8)], none⟩,
        ⟨some "try", some 1, some 10, some [("grade", Value.vint 9)], none⟩,
        ⟨some "try", some 1, some 10, none, none⟩,
        ⟨some "try", some 2, some 20, some [("grade", Value.vint 5)], none⟩,
        ⟨some "try", some 2, some 20, none, none⟩,
        ⟨some "try", some 2, some 20, none, none⟩],
       [⟨some 100, some 10, some "Lyon", "home", some 7, some "flanker", some 1,
          some "Ann", some "Smith", none, none, none⟩,
        ⟨some 100, some 20, some "Bayonne", "away", some 9, some "scrum-half", some 2,
          some "Bea", some "Jones", none, none, none⟩]⟩
      ⟨[], [], [], [], []⟩
    = .ok ⟨"get_rankings",
        [Rec.ranking "which_team"
          [⟨⟨"Ann Smith", some 7, some "flanker", some "Lyon", some 1⟩, 3,
            some ((17 : ℚ) / 2)⟩]
          [] 6], true, none, none⟩ := by
  have hps : playerStats
      [⟨some "try", some 1, some 10, some [("grade", Value.vint 8)], none⟩,
       ⟨some "try", some 1, some 10, some [("grade", Value.vint 9)], none⟩,
       ⟨some "try", some 1, some 10, none, none⟩,
       ⟨some "try", some 2, some 20, some [("grade", Value.vint 5)], none⟩,
       ⟨some "try", some 2, some 20, none, none⟩,
       ⟨some "try", some 2, some 20, none, none⟩]
      = [(1, ⟨3, [8, 9], 17, (17 : ℚ) / 2⟩), (2, ⟨3, [5], 5, (5 : ℚ)⟩)] := by
    norm_num [playerStats, addEvent, insertUpd, updStat, extractGrade, nestedGradeVal,
      topGradeVal, mdLookup, pyGetV, pyInt]
  have hlt : ¬ ((17 : ℚ) / 2 < 5) := by norm_num
  have hmax : maxEntry (playerStats
      [⟨some "try", some 1, some 10, some [("grade", Value.vint 8)], none⟩,
       ⟨some "try", some 1, some 10, some [("grade", Value.vint 9)], none⟩,
       ⟨some "try", some 1, some 10, none, none⟩,
       ⟨some "try", some 2, some 20, some [("grade", Value.vint 5)], none⟩,
       ⟨some "try", some 2, some 20, none, none⟩,
       ⟨some "try", some 2, some 20, none, none⟩])
      = some (1, ⟨3, [8, 9], 17, (17 : ℚ) / 2⟩) := by
    rw [hps]
    simp [maxEntry, keyGTb, statKey, hlt]
  exact (C7_rankings_top_performer.2.2
    ⟨[],
     [⟨some "try", some 1, some 10, some [("grade", Value.vint 8)], none⟩,
      ⟨some "try", some 1, some 10, some [("grade", Value.vint 9)], none⟩,
      ⟨some "try", some 1, some 10, none, none⟩,
      ⟨some "try", some 2, some 20, some [("grade", Value.vint 5)], none⟩,
      ⟨some "try", some 2, some 20, none, none⟩,
      ⟨some "try", some 2, some 20, none, none⟩],
     [⟨some 100, some 10, some "Lyon", "home", some 7, some "flanker", some 1,
        some "Ann", some "Smith", none, none, none⟩,
      ⟨some 100, some 20, some "Bayonne", "away", some 9, some "scrum-half", some 2,
        some "Bea", some "Jones", none, none, none⟩]⟩
    ⟨[], [], [], [], []⟩
    [⟨some "try", some 1, some 10, some [("grade", Value.vint 8)], none⟩,
     ⟨some "try", some 1, some 10, some [("grade", Value.vint 9)], none⟩,
     ⟨some "try", some 1, some 10, none, none⟩,
     ⟨some "try", some 2, some 20, some [("grade", Value.vint 5)], none⟩,
     ⟨some "try", some 2, some 20, none, none⟩,
     ⟨some "try", some 2, some 20, none, none⟩]
    1 ⟨3, [8, 9], 17, (17 : ℚ) / 2⟩
    ⟨some 100, some 10, some "Lyon", "home", some 7, some "flanker", some 1,
      some "Ann", some "Smith", none, none, none⟩
    rfl hmax rfl).1

/-! ## Lemmas about the dispatcher -/

theorem finishQR_success_iff (i : String) (rs : List Rec) (m : String) :
    ((finishQR i rs m).success = true) ↔ (finishQR i rs m).data ≠ [] := by
  simp [finishQR, List.length_pos]

theorem finishQR_error_of_failure (i : String) (rs : List Rec) (m : String)
    (h : (finishQR i rs m).success = false) : ((finishQR i rs m).error).isSome = true := by
  simp [finishQR] at h ⊢
  simp [List.isEmpty_iff, h]

theorem handleGetPlayerInfo_ok {d : RugbyData} {en : Entities} {r : QueryResult}
    (h : handleGetPlayerInfo d en = .ok r) :
    ∃ rs, r = finishQR "get_player_info" rs "No matching players found" := by
  rw [handleGetPlayerInfo] at h
  cases h' : playerInfoResults d en.teams en.players [] with
  | error e => rw [h'] at h; exact absurd h (by simp)
  | ok rs => rw [h'] at h; exact ⟨rs, (Except.ok.inj h).symm⟩

theorem handleGetStats_ok {d : RugbyData} {en : Entities} {r : QueryResult}
    (h : handleGetStats d en = .ok r) :
    ∃ rs, r = finishQR "get_stats" rs "No matching data found" := by
  rw [handleGetStats] at h
  cases h' : statsResultsM d en with
  | error e => rw [h'] at h; exact absurd h (by simp)
  | ok rs => rw [h'] at h; exact ⟨rs, (Except.ok.inj h).symm⟩

theorem handleGetRankings_ok {d : RugbyData} {en : Entities} {r : QueryResult}
    (h : handleGetRankings d en = .ok r) :
    ∃ rs, r = finishQR "get_rankings" rs "No ranking data found" := by
  rw [handleGetRankings] at h
  cases h' : relevantEventsM d en with
  | error e => rw [h'] at h; exact absurd h (by simp)
  | ok revs => rw [h'] at h; exact ⟨rankResults d en revs, (Except.ok.inj h).symm⟩

theorem handleGetTeamInfo_ok {d : RugbyData} {en : Entities} {r : QueryResult}
    (h : handleGetTeamInfo d en = .ok r) :
    ∃ rs, r = finishQR "get_team_info" rs "No matching teams found" := by
  rw [handleGetTeamInfo] at h
  cases h' : teamInfoLoop d en.teams [] with
  | error e => rw [h'] at h; exact absurd h (by simp)
  | ok rs => rw [h'] at h; exact ⟨rs, (Except.ok.inj h).symm⟩

theorem handleCompare_ok {d : RugbyData} {en : Entities} {r : QueryResult}
    (h : handleCompare d en = .ok r) :
    ∃ rs, r = finishQR "compare" rs "Insufficient data for comparison" := by
  rw [handleCompare] at h
  cases h' : compareResultsM d en with
  | error e => rw [h'] at h; exact absurd h (by simp)
  | ok rs => rw [h'] at h; exact ⟨rs, (Except.ok.inj h).symm⟩

theorem handleGetGameInfo_ok {d : RugbyData} {en : Entities} {r : QueryResult}
    (h : handleGetGameInfo d en = .ok r) :
    r = ⟨"get_game_info", d.games.map gameInfoRec,
      decide (0 < (d.games.map gameInfoRec).length), none, none⟩ := by
  rw [handleGetGameInfo] at h
  exact (Except.ok.inj h).symm

/-- Any successfully returned `QueryResult` satisfies the success/data
relation. -/
theorem dispatch_ok_inv {d : RugbyData} {en : Entities} {intent : String} {r : QueryResult}
    (h : dispatchQuery d en intent = .ok r) :
    ((r.success = true) ↔ r.data ≠ []) := by
  rw [dispatchQuery] at h
  split_ifs at h with h1 h2 h3 h4 h5
  · obtain ⟨rs, rfl⟩ := handleGetPlayerInfo_ok h
    exact finishQR_success_iff _ _ _
  · obtain ⟨rs, rfl⟩ := handleGetStats_ok h
    exact finishQR_success_iff _ _ _
  · obtain ⟨rs, rfl⟩ := handleGetRankings_ok h
    exact finishQR_success_iff _ _ _
  · obtain ⟨rs, rfl⟩ := handleGetTeamInfo_ok h
    exact finishQR_success_iff _ _ _
  · obtain ⟨rs, rfl⟩ := handleCompare_ok h
    exact finishQR_success_iff _ _ _
  · obtain rfl := handleGetGameInfo_ok h
    simp [List.length_pos]
  · obtain rfl := (Except.ok.inj h).symm
    simp

/-- Any successfully returned failure other than game-info carries an
error message. -/
theorem dispatch_ok_error {d : RugbyData} {en : Entities} {intent : String} {r : QueryResult}
    (h : dispatchQuery d en intent = .ok r) (hne : intent ≠ "get_game_info")
    (hf : r.success = false) : (r.error).isSome = true := by
  rw [dispatchQuery] at h
  split_ifs at h with h1 h2 h3 h4 h5
  · obtain ⟨rs, rfl⟩ := handleGetPlayerInfo_ok h
    exact finishQR_error_of_failure _ _ _ hf
  · obtain ⟨rs, rfl⟩ := handleGetStats_ok h
    exact finishQR_error_of_failure _ _ _ hf
  · obtain ⟨rs, rfl⟩ := handleGetRankings_ok h
    exact finishQR_error_of_failure _ _ _ hf
  · obtain ⟨rs, rfl⟩ := handleGetTeamInfo_ok h
    exact finishQR_error_of_failure _ _ _ hf
  · obtain ⟨rs, rfl⟩ := handleCompare_ok h
    exact finishQR_error_of_failure _ _ _ hf
  · obtain rfl := (Except.ok.inj h).symm
    simp

/-- C8: for every entity set and intent string, the returned
`QueryResult` has `success = true` iff `data` is nonempty; the game-info
override coincides with this rule (one record per loaded game, success
iff a game exists), and both the unknown-intent result and the
exception-conversion result are failures with empty data. -/
theorem C8_success_iff_nonempty_data (d : RugbyData) (en : Entities) (intent : String) :
    ((getDataForQuery d en intent).success = true)
      ↔ (getDataForQuery d en intent).data ≠ [] := by
  cases hd : dispatchQuery d en intent with
  | error e =>
      rw [getDataForQuery, hd]
      simp
  | ok r =>
      rw [getDataForQuery, hd]
      exact dispatch_ok_inv hd

/-- C9: `get_data_for_query` is a total function into `QueryResult`
(no exception reaches the caller): an intent outside the six recognized
handler names yields `success=False`, empty data and an "Unknown intent"
error; any exception raised inside a handler is converted into a failed
`QueryResult` carrying the exception's message. -/
theorem C9_no_exception_escape :
    (∀ (d : RugbyData) (en : Entities) (intent : String),
        intent ≠ "get_player_info" → intent ≠ "get_stats" →
        intent ≠ "get_rankings" → intent ≠ "top_stat_in_game" →
        intent ≠ "get_team_info" → intent ≠ "compare" → intent ≠ "get_game_info" →
        getDataForQuery d en intent
          = ⟨intent, [], false, some ("Unknown intent: " ++ intent), none⟩)
    ∧ (∀ (d : RugbyData) (en : Entities) (intent msg : String),
        dispatchQuery d en intent = .error msg →
        getDataForQuery d en intent = ⟨intent, [], false, some msg, none⟩) := by
  constructor
  · intro d en intent h1 h2 h3 h4 h5 h6 h7
    rw [getDataForQuery, dispatchQuery]
    simp [h1, h2, h3, h4, h5, h6, h7]
  · intro d en intent msg h
    rw [getDataForQuery, h]

/-- Witness for C9: an unrecognized intent, and a roster entry whose
missing team name makes the player-info handler raise `AttributeError`
(converted into a failed result carrying the message). -/
theorem C9_no_exception_escape_witness :
    getDataForQuery ⟨[], [], []⟩ ⟨[], [], [], [], []⟩ "foo"
      = ⟨"foo", [], false, some ("Unknown intent: " ++ "foo"), none⟩
    ∧ getDataForQuery
        ⟨[], [],
         [⟨none, none, none, "home", some 7, none, some 3, none, none, none, none, none⟩]⟩
        ⟨["7"], ["Lyon"], [], [], []⟩ "get_player_info"
      = ⟨"get_player_info", [], false, some attrLowerErr, none⟩ :=
  ⟨C9_no_exception_escape.1 ⟨[], [], []⟩ ⟨[], [], [], [], []⟩ "foo"
      (by decide) (by decide) (by decide) (by decide) (by decide) (by decide) (by decide),
   C9_no_exception_escape.2
      ⟨[], [],
       [⟨none, none, none, "home", some 7, none, some 3, none, none, none, none, none⟩]⟩
      ⟨["7"], ["Lyon"], [], [], []⟩ "get_player_info" attrLowerErr rfl⟩

/-- C10: with no loaded games, a `get_game_info` query returns
`success=False` with `error=None` (the handler's `QueryResult` call
passes no error argument), while every other intent that fails carries
some error message. -/
theorem C10_game_info_failure_has_no_error :
    (∀ (d : RugbyData) (en : Entities), d.games = [] →
        getDataForQuery d en "get_game_info" = ⟨"get_game_info", [], false, none, none⟩)
    ∧ (∀ (d : RugbyData) (en : Entities) (intent : String), intent ≠ "get_game_info" →
        (getDataForQuery d en intent).success = false →
        ((getDataForQuery d en intent).error).isSome = true) := by
  constructor
  · intro d en h
    rw [getDataForQuery, dispatchQuery]
    simp [handleGetGameInfo, h]
  · intro d en intent hne hf
    cases hd : dispatchQuery d en intent with
    | error e =>
        rw [getDataForQuery, hd]
        simp
    | ok r =>
        rw [getDataForQuery, hd] at hf ⊢
        exact dispatch_ok_error hd hne hf

/-- Witness for C10: the empty corpus. -/
theorem C10_game_info_failure_has_no_error_witness :
    getDataForQuery ⟨[], [], []⟩ ⟨[], [], [], [], []⟩ "get_game_info"
      = ⟨"get_game_info", [], false, none, none⟩
    ∧ ((getDataForQuery ⟨[], [], []⟩ ⟨[], [], [], [], []⟩ "get_stats").error).isSome = true :=
  ⟨C10_game_info_failure_has_no_error.1 ⟨[], [], []⟩ ⟨[], [], [], [], []⟩ rfl,
   C10_game_info_failure_has_no_error.2 ⟨[], [], []⟩ ⟨[], [], [], [], []⟩ "get_stats"
     (by decide) (by decide)⟩
